import Mathlib

/-!
Verification of the color-explorer numeric core.

The TypeScript sources are embedded shallowly:
JavaScript numbers are idealized as real numbers, JS arrays as lists,
the Map of per-index velocities as a list indexed by position, and a
runtime crash (property access on undefined) as Option.none.
Connection indices are integers, as the store functions accept any
JS number argument.
-/

/-- Connection store entry, from the springs store: an ordered record of two
palette indices; the set semantics treat it as unordered. -/
structure SpringConnection where
  index1 : ℤ
  index2 : ℤ
deriving DecidableEq, Repr

/-- The duplicate test used by addSpringConnection: a connection matches the
pair (index1, index2) in either orientation. -/
def connMatches (index1 index2 : ℤ) (conn : SpringConnection) : Prop :=
  (conn.index1 = index1 ∧ conn.index2 = index2) ∨
  (conn.index1 = index2 ∧ conn.index2 = index1)

instance (index1 index2 : ℤ) (conn : SpringConnection) :
    Decidable (connMatches index1 index2 conn) := by
  unfold connMatches; infer_instance

/-- addSpringConnection: appends the pair unless a matching connection
(in either orientation) is already present. -/
def addSpringConnection (index1 index2 : ℤ) (connections : List SpringConnection) :
    List SpringConnection :=
  if connections.any (fun conn => decide (connMatches index1 index2 conn)) then
    connections
  else
    connections ++ [⟨index1, index2⟩]

/-- removeSpringConnection: filters out every connection equal to the pair in
either orientation. -/
def removeSpringConnection (index1 index2 : ℤ) (connections : List SpringConnection) :
    List SpringConnection :=
  connections.filter (fun conn => ! decide (connMatches index1 index2 conn))

/-- clearSpringConnections: resets the store to the empty list. -/
def clearSpringConnections (_connections : List SpringConnection) :
    List SpringConnection := []

/-- createCircularChain: for each position i of the index list, adds the
connection from indices[i] to indices[(i+1) mod length]. -/
def createCircularChain (indices : List ℤ) (connections : List SpringConnection) :
    List SpringConnection :=
  (List.range indices.length).foldl
    (fun acc i =>
      addSpringConnection ((indices.get? i).getD 0)
        ((indices.get? ((i + 1) % indices.length)).getD 0) acc)
    connections

/-- initializeDefaultConnections: clears the store, then for each of the 5
positions and each of the 2 groups builds the circular chain over the 6
palette slots, with flat index group * 30 + slot * 5 + position. -/
def initializeDefaultConnections (connections : List SpringConnection) :
    List SpringConnection :=
  (List.range 5).foldl
    (fun acc colorIndex =>
      (List.range 2).foldl
        (fun acc2 groupIndex =>
          createCircularChain
            ((List.range 6).map
              (fun i => (groupIndex : ℤ) * 30 + (i : ℤ) * 5 + (colorIndex : ℤ)))
            acc2)
        acc)
    (clearSpringConnections connections)

/-- The operations a caller can perform on the connection store. -/
inductive ConnOp where
  | add (index1 index2 : ℤ)
  | remove (index1 index2 : ℤ)
  | clear
  | circularChain (indices : List ℤ)
  | initDefault
deriving Repr

/-- Apply one store operation. -/
def applyConnOp (op : ConnOp) (connections : List SpringConnection) :
    List SpringConnection :=
  match op with
  | ConnOp.add i j => addSpringConnection i j connections
  | ConnOp.remove i j => removeSpringConnection i j connections
  | ConnOp.clear => clearSpringConnections connections
  | ConnOp.circularChain idxs => createCircularChain idxs connections
  | ConnOp.initDefault => initializeDefaultConnections connections

/-- Apply a sequence of store operations, oldest first. -/
def applyConnOps (ops : List ConnOp) (connections : List SpringConnection) :
    List SpringConnection :=
  ops.foldl (fun acc op => applyConnOp op acc) connections

/-- Two connection entries are the same undirected edge when they match up to
swapping the two indices. -/
def sameEdge (a b : SpringConnection) : Prop :=
  (a.index1 = b.index1 ∧ a.index2 = b.index2) ∨
  (a.index1 = b.index2 ∧ a.index2 = b.index1)

instance (a b : SpringConnection) : Decidable (sameEdge a b) := by
  unfold sameEdge; infer_instance

/-- The no-parallel-edge invariant: no two (distinct positions of the) list
hold the same undirected edge. -/
def NoDupEdges (connections : List SpringConnection) : Prop :=
  connections.Pairwise (fun a b => ¬ sameEdge a b)

lemma connMatches_iff_sameEdge (i j : ℤ) (c : SpringConnection) :
    connMatches i j c ↔ sameEdge c ⟨i, j⟩ :=
  Iff.rfl

lemma noDupEdges_add (i j : ℤ) {L : List SpringConnection} (h : NoDupEdges L) :
    NoDupEdges (addSpringConnection i j L) := by
  unfold addSpringConnection
  by_cases hex : L.any (fun conn => decide (connMatches i j conn)) = true
  · rw [if_pos hex]; exact h
  · rw [if_neg hex]
    unfold NoDupEdges
    rw [List.pairwise_append]
    refine ⟨h, List.pairwise_singleton _ _, ?_⟩
    intro a ha b hb
    simp only [List.mem_singleton] at hb
    subst hb
    intro hsame
    apply hex
    rw [List.any_eq_true]
    exact ⟨a, ha, by simpa [connMatches_iff_sameEdge] using hsame⟩

lemma noDupEdges_remove (i j : ℤ) {L : List SpringConnection} (h : NoDupEdges L) :
    NoDupEdges (removeSpringConnection i j L) :=
  List.Pairwise.sublist (List.filter_sublist L) h

lemma noDupEdges_foldl {α : Type} (f : List SpringConnection → α → List SpringConnection)
    (hf : ∀ M a, NoDupEdges M → NoDupEdges (f M a)) :
    ∀ (xs : List α) (M : List SpringConnection), NoDupEdges M → NoDupEdges (xs.foldl f M) := by
  intro xs
  induction xs with
  | nil => intro M hM; exact hM
  | cons x xs ih => intro M hM; exact ih _ (hf M x hM)

lemma noDupEdges_circularChain (idxs : List ℤ) {L : List SpringConnection}
    (h : NoDupEdges L) : NoDupEdges (createCircularChain idxs L) := by
  unfold createCircularChain
  exact noDupEdges_foldl _ (fun M a hM => noDupEdges_add _ _ hM) _ _ h

lemma noDupEdges_initDefault (L : List SpringConnection) :
    NoDupEdges (initializeDefaultConnections L) := by
  unfold initializeDefaultConnections
  exact noDupEdges_foldl _
    (fun M ci hM =>
      noDupEdges_foldl _ (fun M2 g hM2 => noDupEdges_circularChain _ hM2) _ _ hM)
    _ _ List.Pairwise.nil

lemma noDupEdges_applyConnOp (op : ConnOp) {L : List SpringConnection}
    (h : NoDupEdges L) : NoDupEdges (applyConnOp op L) := by
  cases op with
  | add i j => exact noDupEdges_add i j h
  | remove i j => exact noDupEdges_remove i j h
  | clear => exact List.Pairwise.nil
  | circularChain idxs => exact noDupEdges_circularChain idxs h
  | initDefault => exact noDupEdges_initDefault L

/-- C7 counterexample: calling addSpringConnection with two equal indices
creates a self-loop entry, so the claimed invariant index1 different from
index2 is violated by a reachable state. -/
theorem c7_counterexample :
    applyConnOps [ConnOp.add 3 3] [] = [⟨3, 3⟩] ∧
    ¬ (∀ conn ∈ applyConnOps [ConnOp.add 3 3] [], conn.index1 ≠ conn.index2) := by
  constructor
  · decide
  · intro h
    exact h ⟨3, 3⟩ (by decide) rfl

/-- C7 (amended): starting from the empty connection store, any sequence of
add, remove, clear, circular-chain and default-initialization operations keeps
the store free of duplicate undirected edges (no two entries equal up to
swapping index1 and index2); self-loop entries, however, can be created when
an add receives two equal indices, so index1 being different from index2 is
not an invariant. -/
theorem c7_no_duplicate_edges (ops : List ConnOp) :
    NoDupEdges (applyConnOps ops []) := by
  have : ∀ (L : List SpringConnection), NoDupEdges L →
      NoDupEdges (applyConnOps ops L) := by
    induction ops with
    | nil => intro L h; simpa [applyConnOps] using h
    | cons op ops ih =>
      intro L h
      exact ih _ (noDupEdges_applyConnOp op h)
  exact this [] List.Pairwise.nil

/-- C10: adding a connection absent from the store (in either orientation) and
then removing it, with the arguments in either order, restores the store
exactly. -/
theorem c10_add_remove_roundtrip (L : List SpringConnection) (i j : ℤ)
    (h : ∀ conn ∈ L, ¬ connMatches i j conn) :
    removeSpringConnection i j (addSpringConnection i j L) = L ∧
    removeSpringConnection j i (addSpringConnection i j L) = L := by
  have hnotex : L.any (fun conn => decide (connMatches i j conn)) = false := by
    rw [List.any_eq_false]
    intro conn hconn
    simpa using h conn hconn
  have hadd : addSpringConnection i j L = L ++ [⟨i, j⟩] := by
    unfold addSpringConnection
    simp [hnotex]
  have hswap : ∀ conn : SpringConnection, connMatches j i conn ↔ connMatches i j conn := by
    intro conn
    unfold connMatches
    tauto
  constructor
  · rw [hadd]
    unfold removeSpringConnection
    rw [List.filter_append]
    have h1 : L.filter (fun conn => ! decide (connMatches i j conn)) = L := by
      apply List.filter_eq_self.2
      intro conn hconn
      simpa using h conn hconn
    have h2 : [(⟨i, j⟩ : SpringConnection)].filter
        (fun conn => ! decide (connMatches i j conn)) = [] := by
      simp [connMatches]
    rw [h1, h2, List.append_nil]
  · rw [hadd]
    unfold removeSpringConnection
    rw [List.filter_append]
    have h1 : L.filter (fun conn => ! decide (connMatches j i conn)) = L := by
      apply List.filter_eq_self.2
      intro conn hconn
      simp only [Bool.not_eq_true', decide_eq_false_iff_not]
      rw [hswap]
      exact h conn hconn
    have h2 : [(⟨i, j⟩ : SpringConnection)].filter
        (fun conn => ! decide (connMatches j i conn)) = [] := by
      simp [connMatches]
    rw [h1, h2, List.append_nil]

/-- C10 witness: concrete run of the round-trip at a store not containing the
edge being added. -/
theorem c10_add_remove_roundtrip_witness :
    removeSpringConnection 3 4 (addSpringConnection 3 4 [⟨1, 2⟩]) = [⟨1, 2⟩] ∧
    removeSpringConnection 4 3 (addSpringConnection 3 4 [⟨1, 2⟩]) = [⟨1, 2⟩] :=
  c10_add_remove_roundtrip [⟨1, 2⟩] 3 4 (by decide)

/-!
Color model. The code builds colors with the chroma library: hsl to rgb by
the standard triangular formula, relative luminance over the unrounded rgb
channels with BT.709 weights and the 0.03928-threshold gamma linearization,
and the stored rgb fields rounded to integers. JS floats are idealized as
real numbers.
-/

/-- One channel of the hsl to rgb conversion (chroma library): the hue offset
is wrapped into the unit interval once, then the piecewise triangular formula
applies. -/
noncomputable def hsl2rgbChannel (t1 t2 t3 : ℝ) : ℝ :=
  let u := if t3 < 0 then t3 + 1 else if t3 > 1 then t3 - 1 else t3
  if 6 * u < 1 then t1 + (t2 - t1) * 6 * u
  else if 2 * u < 1 then t2
  else if 3 * u < 2 then t1 + (t2 - t1) * ((2 : ℝ) / 3 - u) * 6
  else t1

/-- hsl to rgb conversion (chroma library), hue in degrees, saturation and
lightness in the unit interval, channels on the 0 to 255 scale (unrounded). -/
noncomputable def hsl2rgb (h s l : ℝ) : ℝ × ℝ × ℝ :=
  if s = 0 then (l * 255, l * 255, l * 255)
  else
    let t2 := if l < 0.5 then l * (1 + s) else l + s - l * s
    let t1 := 2 * l - t2
    let h6 := h / 360
    (255 * hsl2rgbChannel t1 t2 (h6 + 1 / 3),
     255 * hsl2rgbChannel t1 t2 h6,
     255 * hsl2rgbChannel t1 t2 (h6 - 1 / 3))

/-- Gamma linearization of one rgb channel (0 to 255 scale), as in the chroma
luminance computation. -/
noncomputable def luminanceX (x : ℝ) : ℝ :=
  let c := x / 255
  if c ≤ 0.03928 then c / 12.92 else ((c + 0.055) / 1.055) ^ (2.4 : ℝ)

/-- Relative luminance from unrounded rgb channels, BT.709 weights. -/
noncomputable def calculateLuminance (r g b : ℝ) : ℝ :=
  0.2126 * luminanceX r + 0.7152 * luminanceX g + 0.0722 * luminanceX b

/-- JS Math.round: floor of x + one half. -/
noncomputable def jsRound (x : ℝ) : ℝ := ((⌊x + 0.5⌋ : ℤ) : ℝ)

/-- Color value object: h, s, l as given, rgb fields rounded to integers by
chroma, luminance computed from the unrounded channels. -/
structure Color where
  h : ℝ
  s : ℝ
  l : ℝ
  rgbR : ℝ
  rgbG : ℝ
  rgbB : ℝ
  luminance : ℝ

/-- createColor: converts (h, s in percent, l in percent) through chroma,
stores rounded rgb and the luminance of the unrounded channels. -/
noncomputable def createColor (h s l : ℝ) : Color :=
  let rgb := hsl2rgb h (s / 100) (l / 100)
  { h := h, s := s, l := l,
    rgbR := jsRound rgb.1, rgbG := jsRound rgb.2.1, rgbB := jsRound rgb.2.2,
    luminance := calculateLuminance rgb.1 rgb.2.1 rgb.2.2 }

/-- Default spring constant; getSpringConstant returns this outside a
browser (no CSS variable available). -/
noncomputable def DEFAULT_SPRING_CONSTANT : ℝ := 0.1

/-- Default damping factor. -/
noncomputable def DEFAULT_DAMPING : ℝ := 0.2

/-- Default integration timestep. -/
noncomputable def DEFAULT_TIMESTEP : ℝ := 1

/-- calculateSpringForce: wraps the difference pos2 - pos1 across the
periodic hue boundary with two sequential corrections, then scales by the
spring constant. -/
noncomputable def calculateSpringForce (pos1 pos2 : ℝ) : ℝ :=
  let diff := pos2 - pos1
  let diff1 := if diff > 180 then diff - 360 else diff
  let diff2 := if diff1 < -180 then diff1 + 360 else diff1
  diff2 * DEFAULT_SPRING_CONSTANT

/-- estimateLightnessChange: probes luminance one lightness unit up, then
divides the damped luminance gap by the finite difference; the JS expression
(luminanceDiff || 0.001) substitutes 0.001 exactly when the finite difference
is zero (JS falsiness), and passes any nonzero value through unchanged. -/
noncomputable def estimateLightnessChange (color : Color) (targetLuminance : ℝ) : ℝ :=
  let testColor := createColor color.h color.s (color.l + 1)
  let luminanceDiff := testColor.luminance - color.luminance
  0.5 * (targetLuminance - color.luminance) /
    (if luminanceDiff = 0 then 0.001 else luminanceDiff)

/-- C4: on hue inputs in [0, 360), the spring force equals the spring
constant times a signed delta that is congruent to pos2 - pos1 modulo 360 and
at most 180 in magnitude (shortest path); for the hue pair (350, 10), the
color at hue 10 is forced by the delta -20 (the raw difference 340 exceeds
180, so 360 is subtracted), not by +340, and the color at hue 350 by +20, so
the two hues pull toward each other along the 20-degree path. -/
theorem c4_spring_force_shortest_path (pos1 pos2 : ℝ)
    (h1 : 0 ≤ pos1) (h2 : pos1 < 360) (h3 : 0 ≤ pos2) (h4 : pos2 < 360) :
    (∃ d : ℝ, calculateSpringForce pos1 pos2 = d * DEFAULT_SPRING_CONSTANT ∧
      |d| ≤ 180 ∧ ∃ m : ℤ, d = pos2 - pos1 + 360 * m) ∧
    calculateSpringForce 10 350 = (-20) * DEFAULT_SPRING_CONSTANT ∧
    calculateSpringForce 350 10 = 20 * DEFAULT_SPRING_CONSTANT := by
  refine ⟨?_, ?_, ?_⟩
  · simp only [calculateSpringForce]
    by_cases hgt : pos2 - pos1 > 180
    · refine ⟨pos2 - pos1 - 360, ?_, ?_, ⟨-1, by ring⟩⟩
      · rw [if_pos hgt, if_neg (by linarith)]
      · rw [abs_le]; constructor <;> linarith
    · rw [if_neg hgt]
      by_cases hlt : pos2 - pos1 < -180
      · refine ⟨pos2 - pos1 + 360, ?_, ?_, ⟨1, by ring⟩⟩
        · rw [if_pos hlt]
        · rw [abs_le]; constructor <;> linarith
      · refine ⟨pos2 - pos1, ?_, ?_, ⟨0, by ring⟩⟩
        · rw [if_neg hlt]
        · rw [abs_le]; constructor <;> linarith
  · simp only [calculateSpringForce, DEFAULT_SPRING_CONSTANT]
    norm_num
  · simp only [calculateSpringForce, DEFAULT_SPRING_CONSTANT]
    norm_num

/-- C4 witness: the shortest-path delta exists concretely for the (350, 10)
hue pair. -/
theorem c4_spring_force_shortest_path_witness :
    (∃ d : ℝ, calculateSpringForce 10 350 = d * DEFAULT_SPRING_CONSTANT ∧
      |d| ≤ 180 ∧ ∃ m : ℤ, d = 350 - 10 + 360 * m) ∧
    calculateSpringForce 10 350 = (-20) * DEFAULT_SPRING_CONSTANT ∧
    calculateSpringForce 350 10 = 20 * DEFAULT_SPRING_CONSTANT :=
  c4_spring_force_shortest_path 10 350 (by norm_num) (by norm_num)
    (by norm_num) (by norm_num)

@[simp] lemma createColor_h (h s l : ℝ) : (createColor h s l).h = h := rfl

@[simp] lemma createColor_s (h s l : ℝ) : (createColor h s l).s = s := rfl

@[simp] lemma createColor_l (h s l : ℝ) : (createColor h s l).l = l := rfl

/-- Luminance of black is zero. -/
lemma luminance_black : (createColor 0 0 0).luminance = 0 := by
  norm_num [createColor, hsl2rgb, calculateLuminance, luminanceX]

/-- Luminance of the gray at one percent lightness: all channels at 2.55 of
255, inside the linear branch of the gamma curve. -/
lemma luminance_gray_one : (createColor 0 0 (0 + 1)).luminance = 1 / 1292 := by
  norm_num [createColor, hsl2rgb, calculateLuminance, luminanceX]

/-- C5 counterexample: at black with target luminance 1, the finite
difference is 1/1292 (about 0.000774), nonzero but below 0.001; the code
divides by it unchanged, and the returned delta 646 exceeds the bound
0.5 times 1 divided by 0.001 = 500 claimed for all inputs. -/
theorem c5_counterexample :
    estimateLightnessChange (createColor 0 0 0) 1 >
      0.5 * |1 - (createColor 0 0 0).luminance| / 0.001 := by
  simp only [estimateLightnessChange, createColor_h, createColor_s, createColor_l,
    luminance_black, luminance_gray_one]
  norm_num

/-- C5 (amended): the divisor of estimateLightnessChange is never zero (an
exactly zero finite difference is replaced by 0.001), and the returned delta
obeys the bound 0.5 times the luminance gap divided by 0.001 whenever the
finite difference is exactly zero or at least 0.001 in magnitude; a nonzero
finite difference smaller than 0.001 is used as divisor unchanged, so the
bound does not hold in general. -/
theorem c5_lightness_step_guard (color : Color) (target : ℝ)
    (hd : (createColor color.h color.s (color.l + 1)).luminance - color.luminance = 0 ∨
      0.001 ≤ |(createColor color.h color.s (color.l + 1)).luminance - color.luminance|) :
    (if (createColor color.h color.s (color.l + 1)).luminance - color.luminance = 0
        then (0.001 : ℝ)
        else (createColor color.h color.s (color.l + 1)).luminance - color.luminance) ≠ 0 ∧
    |estimateLightnessChange color target| ≤ 0.5 * |target - color.luminance| / 0.001 := by
  set d := (createColor color.h color.s (color.l + 1)).luminance - color.luminance with hdset
  constructor
  · by_cases h0 : d = 0
    · rw [if_pos h0]; norm_num
    · rw [if_neg h0]; exact h0
  · simp only [estimateLightnessChange, ← hdset]
    rcases hd with h0 | hge
    · rw [if_pos h0]
      rw [abs_div, abs_mul]
      rw [abs_of_pos (show (0.5 : ℝ) > 0 by norm_num),
        abs_of_pos (show (0.001 : ℝ) > 0 by norm_num)]
    · have h0 : d ≠ 0 := by
        intro h; rw [h] at hge; simp at hge; linarith
      rw [if_neg h0]
      rw [abs_div, abs_mul]
      rw [abs_of_pos (show (0.5 : ℝ) > 0 by norm_num)]
      exact div_le_div_of_nonneg_left (by positivity) (by norm_num) hge

/-- Shared evaluation: luminance of the green at lightness 0.9 percent. -/
lemma luminance_green_small :
    (createColor 120 100 0.9).luminance = 0.7152 * (0.018 / 12.92) := by
  norm_num [createColor, hsl2rgb, hsl2rgbChannel, calculateLuminance, luminanceX]

/-- Shared evaluation: luminance of the green at lightness 1.9 percent. -/
lemma luminance_green_small_up :
    (createColor 120 100 (0.9 + 1)).luminance = 0.7152 * (0.038 / 12.92) := by
  norm_num [createColor, hsl2rgb, hsl2rgbChannel, calculateLuminance, luminanceX]

/-- C5 witness: at the green color (120, 100, 0.9) the finite difference is
at least 0.001 in magnitude, and the bound holds there. -/
theorem c5_lightness_step_guard_witness :
    (if (createColor (createColor 120 100 0.9).h (createColor 120 100 0.9).s
        ((createColor 120 100 0.9).l + 1)).luminance -
        (createColor 120 100 0.9).luminance = 0
      then (0.001 : ℝ)
      else (createColor (createColor 120 100 0.9).h (createColor 120 100 0.9).s
        ((createColor 120 100 0.9).l + 1)).luminance -
        (createColor 120 100 0.9).luminance) ≠ 0 ∧
    |estimateLightnessChange (createColor 120 100 0.9) 0| ≤
      0.5 * |0 - (createColor 120 100 0.9).luminance| / 0.001 :=
  c5_lightness_step_guard (createColor 120 100 0.9) 0 (Or.inr (by
    simp only [createColor_h, createColor_s, createColor_l,
      luminance_green_small, luminance_green_small_up]
    rw [abs_of_pos (by norm_num)]
    norm_num))

/-!
Spring network. The velocity Map keys are always 0 .. n-1 in insertion
order, so the Map is modelled as a list indexed by position; a lookup of a
missing key followed by a property access (velocities.get(i)! on a short
map, or colors[j] for an out-of-range connection index) is a JS TypeError,
modelled as Option.none for the whole step.
-/

/-- Per-index velocity triple. -/
structure ColorVelocity where
  h : ℝ
  s : ℝ
  l : ℝ

/-- Velocity triples are equal when their components are. -/
theorem ColorVelocity.ext2 {a b : ColorVelocity}
    (h1 : a.h = b.h) (h2 : a.s = b.s) (h3 : a.l = b.l) : a = b := by
  cases a; cases b; cases h1; cases h2; cases h3; rfl

/-- initializeVelocities: clears the map and stores one zero triple per
palette index. -/
noncomputable def initializeVelocities (colors : List Color) : List ColorVelocity :=
  colors.map (fun _ => ⟨0, 0, 0⟩)

/-- getConnectedIndices: the neighbors of an index in the connection list. -/
def getConnectedIndices (conns : List SpringConnection) (index : ℤ) : List ℤ :=
  (conns.filter (fun conn => decide (conn.index1 = index ∨ conn.index2 = index))).map
    (fun conn => if conn.index1 = index then conn.index2 else conn.index1)

/-- JS array indexing: undefined (none) outside the range. -/
def jsIndex {α : Type} (l : List α) (j : ℤ) : Option α :=
  if h : 0 ≤ j ∧ j.toNat < l.length then some (l.get ⟨j.toNat, h.2⟩) else none

/-- JS truncation toward zero. -/
noncomputable def jsTrunc (x : ℝ) : ℤ := if x < 0 then ⌈x⌉ else ⌊x⌋

/-- JS remainder: a - n * trunc(a / n). -/
noncomputable def jsMod (a n : ℝ) : ℝ := a - n * ((jsTrunc (a / n) : ℤ) : ℝ)

/-- Force accumulation for one unlocked index: hue, saturation and luminance
forces summed over all connected colors, the luminance force then converted
to a lightness force by estimateLightnessChange at the shifted target. A
connection to an out-of-range index crashes (none). -/
noncomputable def computeForce (conns : List SpringConnection) (colors : List Color)
    (color : Color) (i : ℕ) : Option ColorVelocity :=
  (((getConnectedIndices conns (i : ℤ)).mapM (jsIndex colors)).map
    (fun connectedColors =>
      let totalForceH :=
        (connectedColors.map (fun cc => calculateSpringForce color.h cc.h)).sum
      let totalForceS :=
        (connectedColors.map (fun cc => (cc.s - color.s) * DEFAULT_SPRING_CONSTANT)).sum
      let totalForceLuminance :=
        (connectedColors.map
          (fun cc => (cc.luminance - color.luminance) * DEFAULT_SPRING_CONSTANT)).sum
      let lightnessForce :=
        estimateLightnessChange color (color.luminance + totalForceLuminance)
      ⟨totalForceH, totalForceS, lightnessForce⟩))

/-- First loop of simulateStep: per index, none when locked (skipped),
otherwise the accumulated force. -/
noncomputable def computeForces (conns : List SpringConnection) (colors : List Color)
    (locked : Finset ℕ) : Option (List (Option ColorVelocity)) :=
  (List.range colors.length).mapM (fun i =>
    if i ∈ locked then some none
    else match colors[i]? with
      | none => none
      | some color => (computeForce conns colors color i).map some)

/-- Second loop of simulateStep, for one unlocked index: velocity update with
damping, position update with hue wrap and saturation and lightness clamps.
A missing velocity entry crashes (none). -/
noncomputable def integrateIndex (colors : List Color) (vels : List ColorVelocity)
    (force : ColorVelocity) (i : ℕ) : Option (Color × ColorVelocity) :=
  match vels[i]? with
  | none => none
  | some vel =>
    match colors[i]? with
    | none => none
    | some color =>
      let vh := (vel.h + force.h * DEFAULT_TIMESTEP) * (1 - DEFAULT_DAMPING)
      let vs := (vel.s + force.s * DEFAULT_TIMESTEP) * (1 - DEFAULT_DAMPING)
      let vl := (vel.l + force.l * DEFAULT_TIMESTEP) * (1 - DEFAULT_DAMPING)
      let newH0 := jsMod (color.h + vh * DEFAULT_TIMESTEP) 360
      let newH := if newH0 < 0 then newH0 + 360 else newH0
      let newS := max 0 (min 100 (color.s + vs * DEFAULT_TIMESTEP))
      let newL := max 0 (min 100 (color.l + vl * DEFAULT_TIMESTEP))
      some (createColor newH newS newL, ⟨vh, vs, vl⟩)

/-- Write back the per-index updates into the copied color array: locked (or
absent) positions keep the original entry. -/
noncomputable def applyColorUpdates (colors : List Color)
    (updates : List (Option (Color × ColorVelocity))) : List Color :=
  colors.mapIdx (fun i c =>
    match updates[i]?.join with
    | some u => u.1
    | none => c)

/-- Write back the per-index updates into the velocity map: untouched keys
(locked indices and stale keys beyond the palette) keep their value. -/
noncomputable def applyVelUpdates (vels : List ColorVelocity)
    (updates : List (Option (Color × ColorVelocity))) : List ColorVelocity :=
  vels.mapIdx (fun i v =>
    match updates[i]?.join with
    | some u => u.2
    | none => v)

/-- Both loops of simulateStep over an already-initialized velocity map. -/
noncomputable def simulateStepCore (conns : List SpringConnection) (colors : List Color)
    (locked : Finset ℕ) (vels : List ColorVelocity) :
    Option (List Color × List ColorVelocity) :=
  (computeForces conns colors locked).bind (fun forces =>
    ((List.range colors.length).mapM (fun i =>
      if i ∈ locked then some none
      else
        (integrateIndex colors vels (forces[i]?.join.getD ⟨0, 0, 0⟩) i).map
          some)).map
      (fun updates => (applyColorUpdates colors updates, applyVelUpdates vels updates)))

/-- simulateStep: initializes the velocity map (to one zero triple per
palette index) only when it is empty, then runs both loops; returns the new
palette and the velocity map after the step. -/
noncomputable def simulateStep (conns : List SpringConnection) (colors : List Color)
    (locked : Finset ℕ) (vels : List ColorVelocity) :
    Option (List Color × List ColorVelocity) :=
  simulateStepCore conns colors locked
    (if vels.isEmpty then initializeVelocities colors else vels)

/-- Iterated stepping: k successive simulateStep calls threading palette and
velocity state. -/
noncomputable def stepN (conns : List SpringConnection) (locked : Finset ℕ) :
    ℕ → List Color × List ColorVelocity → Option (List Color × List ColorVelocity)
  | 0, st => some st
  | k + 1, st => (simulateStep conns st.1 locked st.2).bind (stepN conns locked k)


lemma getElem?_mapIdx {α β : Type} (f : ℕ → α → β) :
    ∀ (l : List α) (i : ℕ), (l.mapIdx f)[i]? = l[i]?.map (f i) := by
  intro l
  induction l generalizing f with
  | nil => intro i; simp
  | cons a l ih =>
    intro i
    rw [List.mapIdx_cons]
    cases i with
    | zero => simp
    | succ i =>
      simp only [List.getElem?_cons_succ]
      exact ih (fun i => f (i + 1)) i

lemma mapIdx_id_of_fix {α : Type} (f : ℕ → α → α) :
    ∀ (l : List α), (∀ i a, l[i]? = some a → f i a = a) → l.mapIdx f = l := by
  intro l
  induction l generalizing f with
  | nil => intro _; simp
  | cons a l ih =>
    intro h
    rw [List.mapIdx_cons]
    rw [h 0 a (by simp)]
    rw [ih (fun i => f (i + 1)) (fun i b hb => h (i + 1) b (by simpa using hb))]

lemma mapM_eq_map_of_some {α β : Type} (f : α → Option β) (g : α → β) :
    ∀ (l : List α), (∀ a ∈ l, f a = some (g a)) → l.mapM f = some (l.map g) := by
  intro l
  induction l with
  | nil => intro _; rfl
  | cons a l ih =>
    intro h
    rw [List.mapM_cons, h a (by simp), ih (fun b hb => h b (by simp [hb]))]
    rfl

lemma mapM_some_length {α β : Type} (f : α → Option β) :
    ∀ (l : List α) (bs : List β), l.mapM f = some bs → bs.length = l.length := by
  intro l
  induction l with
  | nil =>
    intro bs h
    have h0 : ([] : List α).mapM f = some [] := rfl
    rw [h0] at h
    injection h with h2
    rw [← h2]
    rfl
  | cons a l ih =>
    intro bs h
    rw [List.mapM_cons] at h
    cases hfa : f a with
    | none => rw [hfa] at h; simp at h
    | some b =>
      rw [hfa] at h
      cases hml : l.mapM f with
      | none => rw [hml] at h; simp at h
      | some bs2 =>
        rw [hml] at h
        simp at h
        rw [← h]
        simp [ih bs2 hml]

lemma mapM_some_getElem? {α β : Type} (f : α → Option β) :
    ∀ (l : List α) (bs : List β), l.mapM f = some bs →
      ∀ (i : ℕ) (a : α), l[i]? = some a → bs[i]? = f a := by
  intro l
  induction l with
  | nil => intro bs _ i a ha; simp at ha
  | cons x l ih =>
    intro bs h i a ha
    rw [List.mapM_cons] at h
    cases hfx : f x with
    | none => rw [hfx] at h; simp at h
    | some b =>
      rw [hfx] at h
      cases hml : l.mapM f with
      | none => rw [hml] at h; simp at h
      | some bs2 =>
        rw [hml] at h
        simp at h
        subst h
        cases i with
        | zero =>
          simp at ha
          subst ha
          simpa using hfx.symm
        | succ i =>
          simp at ha ⊢
          exact ih bs2 hml i a ha

lemma jsMod_eq_self {a n : ℝ} (h0 : 0 ≤ a) (h1 : a < n) (hn : 0 < n) :
    jsMod a n = a := by
  unfold jsMod jsTrunc
  have hq0 : 0 ≤ a / n := div_nonneg h0 (le_of_lt hn)
  have hq1 : a / n < 1 := (div_lt_one hn).2 h1
  rw [if_neg (not_lt.2 hq0)]
  rw [Int.floor_eq_zero_iff.2 ⟨hq0, hq1⟩]
  simp

lemma estimateLightnessChange_self (c : Color) :
    estimateLightnessChange c (c.luminance + 0) = 0 := by
  simp only [estimateLightnessChange]
  rw [show c.luminance + 0 - c.luminance = (0 : ℝ) by ring]
  simp

lemma computeForce_empty (colors : List Color) (c : Color) (i : ℕ) :
    computeForce [] colors c i = some ⟨0, 0, 0⟩ := by
  simp only [computeForce, getConnectedIndices, List.filter_nil, List.map_nil]
  rw [show (([] : List ℤ).mapM (jsIndex colors)) = some [] from rfl]
  rw [Option.map_some']
  simp only [List.map_nil, List.sum_nil]
  rw [estimateLightnessChange_self]

lemma computeForces_empty (colors : List Color) (locked : Finset ℕ) :
    computeForces [] colors locked =
      some ((List.range colors.length).map
        (fun i => if i ∈ locked then none else some ⟨0, 0, 0⟩)) := by
  apply mapM_eq_map_of_some
  intro i hi
  rw [List.mem_range] at hi
  by_cases hl : i ∈ locked
  · rw [if_pos hl, if_pos hl]
  · rw [if_neg hl, if_neg hl]
    have hc : colors[i]? = some colors[i] := List.getElem?_eq_getElem hi
    rw [hc]
    simp only [computeForce_empty, Option.map_some']

/-- Colors that are in range and reproduced by createColor from their own
h, s, l fields. -/
def WellFormedColor (c : Color) : Prop :=
  0 ≤ c.h ∧ c.h < 360 ∧ 0 ≤ c.s ∧ c.s ≤ 100 ∧ 0 ≤ c.l ∧ c.l ≤ 100 ∧
    c = createColor c.h c.s c.l

lemma integrateIndex_zero (colors : List Color) (vels : List ColorVelocity) (i : ℕ)
    (c : Color) (hc : colors[i]? = some c) (hv : vels[i]? = some ⟨0, 0, 0⟩)
    (hwf : WellFormedColor c) :
    integrateIndex colors vels ⟨0, 0, 0⟩ i = some (c, ⟨0, 0, 0⟩) := by
  obtain ⟨hh0, hh1, hs0, hs1, hl0, hl1, hcc⟩ := hwf
  simp only [integrateIndex, hv, hc]
  have hv0 : ((0 : ℝ) + 0 * DEFAULT_TIMESTEP) * (1 - DEFAULT_DAMPING) = 0 := by
    norm_num [DEFAULT_TIMESTEP, DEFAULT_DAMPING]
  simp only [hv0]
  have hT : ∀ x : ℝ, x + 0 * DEFAULT_TIMESTEP = x := by
    intro x; norm_num
  simp only [hT]
  rw [jsMod_eq_self hh0 hh1 (by norm_num)]
  rw [if_neg (not_lt.2 hh0)]
  rw [min_eq_right hs1, max_eq_right hs0]
  rw [min_eq_right hl1, max_eq_right hl0]
  rw [← hcc]

/-- With no connections, a step from an all-zero velocity map (on every
palette index) leaves both the palette and the velocity map unchanged. -/
lemma simulateStepCore_empty_conns (colors : List Color) (locked : Finset ℕ)
    (vels : List ColorVelocity)
    (hlen : ∀ i, i < colors.length → vels[i]? = some ⟨0, 0, 0⟩)
    (hcol : ∀ (i : ℕ) (c : Color), colors[i]? = some c → WellFormedColor c) :
    simulateStepCore [] colors locked vels = some (colors, vels) := by
  rw [simulateStepCore, computeForces_empty colors locked]
  rw [Option.some_bind]
  have hupd :
      ((List.range colors.length).mapM (fun i =>
        if i ∈ locked then some none
        else
          (integrateIndex colors vels
            (((List.range colors.length).map
              (fun i => if i ∈ locked then none else some ⟨0, 0, 0⟩))[i]?.join.getD
              ⟨0, 0, 0⟩) i).map some)) =
      some ((List.range colors.length).map
        (fun i => if i ∈ locked then none
          else colors[i]?.map (fun c => (c, (⟨0, 0, 0⟩ : ColorVelocity))))) := by
    apply mapM_eq_map_of_some
    intro i hi
    rw [List.mem_range] at hi
    by_cases hl : i ∈ locked
    · rw [if_pos hl, if_pos hl]
    · rw [if_neg hl, if_neg hl]
      have hforce :
          ((List.range colors.length).map
            (fun i => if i ∈ locked then none else some ⟨0, 0, 0⟩))[i]?.join.getD
            ⟨0, 0, 0⟩ = (⟨0, 0, 0⟩ : ColorVelocity) := by
        simp only [List.getElem?_map, List.getElem?_range hi, Option.map_some']
        rw [if_neg hl]
        rfl
      rw [hforce]
      have hc : colors[i]? = some colors[i] := List.getElem?_eq_getElem hi
      rw [integrateIndex_zero colors vels i _ hc (hlen i hi) (hcol i _ hc)]
      rw [hc]
      rfl
  rw [hupd]
  rw [Option.map_some']
  congr 1
  rw [Prod.mk.injEq]
  constructor
  · apply mapIdx_id_of_fix
    intro i a ha
    have hi : i < colors.length := by
      by_contra hge
      rw [List.getElem?_eq_none (by omega)] at ha
      exact Option.noConfusion ha
    simp only [List.getElem?_map, List.getElem?_range hi, Option.map_some']
    by_cases hl : i ∈ locked
    · rw [if_pos hl]
      rfl
    · rw [if_neg hl, ha]
      rfl
  · apply mapIdx_id_of_fix
    intro i a ha
    by_cases hi : i < colors.length
    · simp only [List.getElem?_map, List.getElem?_range hi, Option.map_some']
      by_cases hl : i ∈ locked
      · rw [if_pos hl]
        rfl
      · rw [if_neg hl]
        have hz := hlen i hi
        rw [ha] at hz
        injection hz with h2
        rw [List.getElem?_eq_getElem hi, Option.map_some']
        rw [← h2]
        rfl
    · have hnone :
          ((List.range colors.length).map
            (fun i => if i ∈ locked then none
              else colors[i]?.map
                (fun c => (c, (⟨0, 0, 0⟩ : ColorVelocity)))))[i]? = none := by
        apply List.getElem?_eq_none
        simpa using (by omega : colors.length ≤ i)
      rw [hnone]
      rfl

lemma initializeVelocities_getElem? (colors : List Color) (i : ℕ)
    (hi : i < colors.length) :
    (initializeVelocities colors)[i]? = some ⟨0, 0, 0⟩ := by
  rw [initializeVelocities, List.getElem?_map,
    List.getElem?_eq_getElem hi, Option.map_some']

lemma wellFormed_createColor (h s l : ℝ) (h1 : 0 ≤ h) (h2 : h < 360)
    (h3 : 0 ≤ s) (h4 : s ≤ 100) (h5 : 0 ≤ l) (h6 : l ≤ 100) :
    WellFormedColor (createColor h s l) := by
  refine ⟨?_, ?_, ?_, ?_, ?_, ?_, ?_⟩ <;>
    simp [createColor_h, createColor_s, createColor_l, h1, h2, h3, h4, h5, h6]

/-- C2: with an empty connection set, any number of simulateStep calls from
zero velocities returns the palette (built by createColor from in-range
h, s, l triples) unchanged, for every locked set. -/
theorem c2_empty_network_palette_unchanged (ps : List (ℝ × ℝ × ℝ))
    (hp : ∀ p ∈ ps, 0 ≤ p.1 ∧ p.1 < 360 ∧ 0 ≤ p.2.1 ∧ p.2.1 ≤ 100 ∧
      0 ≤ p.2.2 ∧ p.2.2 ≤ 100)
    (locked : Finset ℕ) (k : ℕ) :
    (stepN [] locked k
        (ps.map (fun p => createColor p.1 p.2.1 p.2.2), [])).map Prod.fst =
      some (ps.map (fun p => createColor p.1 p.2.1 p.2.2)) := by
  set colors := ps.map (fun p => createColor p.1 p.2.1 p.2.2) with hcolors
  have hcol : ∀ (i : ℕ) (c : Color), colors[i]? = some c → WellFormedColor c := by
    intro i c hc
    rw [hcolors, List.getElem?_map] at hc
    cases hp2 : ps[i]? with
    | none => rw [hp2] at hc; exact Option.noConfusion hc
    | some p =>
      rw [hp2, Option.map_some'] at hc
      injection hc with hc2
      have hmem : p ∈ ps := List.getElem?_mem hp2
      obtain ⟨h1, h2, h3, h4, h5, h6⟩ := hp p hmem
      rw [← hc2]
      exact wellFormed_createColor _ _ _ h1 h2 h3 h4 h5 h6
  have key : ∀ (k : ℕ) (vels : List ColorVelocity),
      (vels = [] ∨ ∀ i, i < colors.length → vels[i]? = some ⟨0, 0, 0⟩) →
      (stepN [] locked k (colors, vels)).map Prod.fst = some colors := by
    intro k
    induction k with
    | zero => intro vels _; rfl
    | succ k ih =>
      intro vels hv
      rw [stepN]
      have hlen2 : ∀ i, i < colors.length →
          (if vels.isEmpty then initializeVelocities colors else vels)[i]? =
            some ⟨0, 0, 0⟩ := by
        intro i hi
        by_cases he : vels.isEmpty = true
        · rw [if_pos he]
          exact initializeVelocities_getElem? colors i hi
        · rw [if_neg he]
          rcases hv with hv | hv
          · rw [hv] at he; exact absurd rfl he
          · exact hv i hi
      have hstep : simulateStep [] colors locked vels =
          some (colors, if vels.isEmpty then initializeVelocities colors else vels) := by
        rw [simulateStep]
        exact simulateStepCore_empty_conns colors locked _ hlen2 hcol
      rw [hstep, Option.some_bind]
      exact ih _ (Or.inr hlen2)
  exact key k [] (Or.inl rfl)

/-- C2 witness: a one-color palette at black, two steps, empty locked set. -/
theorem c2_empty_network_palette_unchanged_witness :
    (stepN [] ∅ 2
        (([((0 : ℝ), (0 : ℝ), (0 : ℝ))]).map
          (fun p => createColor p.1 p.2.1 p.2.2), [])).map Prod.fst =
      some (([((0 : ℝ), (0 : ℝ), (0 : ℝ))]).map
        (fun p => createColor p.1 p.2.1 p.2.2)) :=
  c2_empty_network_palette_unchanged [(0, 0, 0)]
    (by
      intro p hp
      rw [List.mem_singleton] at hp
      rw [hp]
      norm_num)
    ∅ 2

lemma applyColorUpdates_keep (colors : List Color)
    (updates : List (Option (Color × ColorVelocity))) (i : ℕ)
    (h : updates[i]?.join = none) :
    (applyColorUpdates colors updates)[i]? = colors[i]? := by
  rw [applyColorUpdates, getElem?_mapIdx]
  simp only [h]
  cases colors[i]? <;> rfl

lemma applyVelUpdates_keep (vels : List ColorVelocity)
    (updates : List (Option (Color × ColorVelocity))) (i : ℕ)
    (h : updates[i]?.join = none) :
    (applyVelUpdates vels updates)[i]? = vels[i]? := by
  rw [applyVelUpdates, getElem?_mapIdx]
  simp only [h]
  cases vels[i]? <;> rfl

/-- C3: a locked index keeps exactly its pre-step palette entry, and the new
entry of any unlocked index does not depend on the locked set at all (every
force reads the pre-step colors array), so neighbors of a locked color move
exactly as if it were an ordinary stationary force source. -/
theorem c3_locked_skipped_still_source (conns : List SpringConnection)
    (colors : List Color) (locked : Finset ℕ) (vels : List ColorVelocity) :
    (∀ result, simulateStep conns colors locked vels = some result →
      ∀ i ∈ locked, result.1[i]? = colors[i]?) ∧
    (∀ (locked2 : Finset ℕ) (i : ℕ), i ∉ locked → i ∉ locked2 →
      ∀ r1 r2, simulateStep conns colors locked vels = some r1 →
        simulateStep conns colors locked2 vels = some r2 →
        r1.1[i]? = r2.1[i]?) := by
  constructor
  · intro result hres i hil
    rw [simulateStep, simulateStepCore] at hres
    obtain ⟨forces, hf, hres⟩ := Option.bind_eq_some.1 hres
    obtain ⟨updates, hu, hpair⟩ := Option.map_eq_some'.1 hres
    rw [← hpair]
    dsimp only
    by_cases hi : i < colors.length
    · have e := mapM_some_getElem? _ _ _ hu i i (List.getElem?_range hi)
      rw [if_pos hil] at e
      apply applyColorUpdates_keep
      rw [e]
      rfl
    · apply applyColorUpdates_keep
      have hlen : updates.length ≤ i := by
        rw [mapM_some_length _ _ _ hu]
        simpa using (by omega : colors.length ≤ i)
      rw [List.getElem?_eq_none hlen]
      rfl
  · intro locked2 i hi1 hi2 r1 r2 h1 h2
    rw [simulateStep, simulateStepCore] at h1 h2
    obtain ⟨forces1, hf1, h1⟩ := Option.bind_eq_some.1 h1
    obtain ⟨updates1, hu1, hp1⟩ := Option.map_eq_some'.1 h1
    obtain ⟨forces2, hf2, h2⟩ := Option.bind_eq_some.1 h2
    obtain ⟨updates2, hu2, hp2⟩ := Option.map_eq_some'.1 h2
    rw [← hp1, ← hp2]
    dsimp only
    by_cases hi : i < colors.length
    · have hrange : (List.range colors.length)[i]? = some i :=
        List.getElem?_range hi
      have e1 := mapM_some_getElem? _ _ _ hu1 i i hrange
      have e2 := mapM_some_getElem? _ _ _ hu2 i i hrange
      rw [if_neg hi1] at e1
      rw [if_neg hi2] at e2
      have ef1 := mapM_some_getElem? _ _ _ hf1 i i hrange
      have ef2 := mapM_some_getElem? _ _ _ hf2 i i hrange
      rw [if_neg hi1] at ef1
      rw [if_neg hi2] at ef2
      have hsame : updates1[i]? = updates2[i]? := by
        rw [e1, e2, ef1, ef2]
      rw [applyColorUpdates, getElem?_mapIdx, applyColorUpdates, getElem?_mapIdx,
        hsame]
    · have hl1 : updates1.length ≤ i := by
        rw [mapM_some_length _ _ _ hu1]
        simpa using (by omega : colors.length ≤ i)
      have hl2 : updates2.length ≤ i := by
        rw [mapM_some_length _ _ _ hu2]
        simpa using (by omega : colors.length ≤ i)
      rw [applyColorUpdates_keep _ _ _ (by rw [List.getElem?_eq_none hl1]; rfl),
        applyColorUpdates_keep _ _ _ (by rw [List.getElem?_eq_none hl2]; rfl)]

lemma wellFormed_black : WellFormedColor (createColor 0 0 0) :=
  wellFormed_createColor 0 0 0 (by norm_num) (by norm_num) (by norm_num)
    (by norm_num) (by norm_num) (by norm_num)

lemma blacks1_wf : ∀ (i : ℕ) (c : Color),
    ([createColor 0 0 0] : List Color)[i]? = some c → WellFormedColor c := by
  intro i c hc
  rcases i with _ | i
  · simp at hc
    rw [← hc]
    exact wellFormed_black
  · simp at hc

lemma blacks2_wf : ∀ (i : ℕ) (c : Color),
    ([createColor 0 0 0, createColor 0 0 0] : List Color)[i]? = some c →
      WellFormedColor c := by
  intro i c hc
  rcases i with _ | _ | i
  · simp at hc
    rw [← hc]
    exact wellFormed_black
  · simp at hc
    rw [← hc]
    exact wellFormed_black
  · simp at hc

lemma step_black2_fresh (locked : Finset ℕ) :
    simulateStep [] [createColor 0 0 0, createColor 0 0 0] locked [] =
      some ([createColor 0 0 0, createColor 0 0 0],
        [⟨0, 0, 0⟩, ⟨0, 0, 0⟩]) := by
  rw [simulateStep]
  rw [show (if ([] : List ColorVelocity).isEmpty
      then initializeVelocities [createColor 0 0 0, createColor 0 0 0]
      else []) = [⟨0, 0, 0⟩, ⟨0, 0, 0⟩] from rfl]
  exact simulateStepCore_empty_conns _ _ _
    (by
      intro i hi
      simp only [List.length_cons, List.length_nil] at hi
      interval_cases i <;> rfl) blacks2_wf

lemma step_black1_stale (locked : Finset ℕ) :
    simulateStep [] [createColor 0 0 0] locked [⟨0, 0, 0⟩, ⟨0, 0, 0⟩] =
      some ([createColor 0 0 0], [⟨0, 0, 0⟩, ⟨0, 0, 0⟩]) := by
  rw [simulateStep]
  rw [show (if ([⟨0, 0, 0⟩, ⟨0, 0, 0⟩] : List ColorVelocity).isEmpty
      then initializeVelocities [createColor 0 0 0]
      else [⟨0, 0, 0⟩, ⟨0, 0, 0⟩]) = [⟨0, 0, 0⟩, ⟨0, 0, 0⟩] from rfl]
  exact simulateStepCore_empty_conns _ _ _
    (by
      intro i hi
      simp only [List.length_cons, List.length_nil] at hi
      interval_cases i
      rfl) blacks1_wf

/-- C3 witness: with palette of two blacks and index 0 locked, the locked
entry is kept, and the entry at the unlocked index 1 is the same whether
index 0 is locked or nothing is. -/
theorem c3_locked_skipped_still_source_witness :
    (([createColor 0 0 0, createColor 0 0 0],
        ([⟨0, 0, 0⟩, ⟨0, 0, 0⟩] : List ColorVelocity)).1[0]? =
      ([createColor 0 0 0, createColor 0 0 0] : List Color)[0]?) ∧
    (([createColor 0 0 0, createColor 0 0 0],
        ([⟨0, 0, 0⟩, ⟨0, 0, 0⟩] : List ColorVelocity)).1[1]? =
      ([createColor 0 0 0, createColor 0 0 0],
        ([⟨0, 0, 0⟩, ⟨0, 0, 0⟩] : List ColorVelocity)).1[1]?) := by
  constructor
  · exact (c3_locked_skipped_still_source []
      [createColor 0 0 0, createColor 0 0 0] {0} []).1
      _ (step_black2_fresh {0}) 0 (by simp)
  · exact (c3_locked_skipped_still_source []
      [createColor 0 0 0, createColor 0 0 0] {0} []).2
      ∅ 1 (by simp) (by simp)
      _ _ (step_black2_fresh {0}) (step_black2_fresh ∅)

/-- C8 (amended): the velocity map is re-initialized (one zero triple per
palette index) only when it is empty, which happens on first use and after an
explicit reset with an empty palette; a nonempty map is never rebuilt by
simulateStep: its length is preserved even when the palette length differs,
and locked indices keep their velocity values. -/
theorem c8_velocity_lifecycle (conns : List SpringConnection) (colors : List Color)
    (locked : Finset ℕ) (vels : List ColorVelocity) :
    (∀ result, simulateStep conns colors locked [] = some result →
      result.2.length = colors.length) ∧
    (vels ≠ [] → ∀ result, simulateStep conns colors locked vels = some result →
      result.2.length = vels.length ∧
      ∀ i ∈ locked, result.2[i]? = vels[i]?) ∧
    ((initializeVelocities colors).length = colors.length ∧
      ∀ i, i < colors.length → (initializeVelocities colors)[i]? = some ⟨0, 0, 0⟩) := by
  refine ⟨?_, ?_, ?_, ?_⟩
  · intro result hres
    rw [simulateStep] at hres
    rw [show (if ([] : List ColorVelocity).isEmpty
        then initializeVelocities colors else []) =
        initializeVelocities colors from rfl] at hres
    rw [simulateStepCore] at hres
    obtain ⟨forces, hf, hres⟩ := Option.bind_eq_some.1 hres
    obtain ⟨updates, hu, hpair⟩ := Option.map_eq_some'.1 hres
    rw [← hpair]
    dsimp only
    rw [applyVelUpdates, List.length_mapIdx, initializeVelocities,
      List.length_map]
  · intro hne result hres
    rw [simulateStep] at hres
    have hv0 : (if vels.isEmpty then initializeVelocities colors else vels) =
        vels := by
      cases vels with
      | nil => exact absurd rfl hne
      | cons v vs => rfl
    rw [hv0, simulateStepCore] at hres
    obtain ⟨forces, hf, hres⟩ := Option.bind_eq_some.1 hres
    obtain ⟨updates, hu, hpair⟩ := Option.map_eq_some'.1 hres
    rw [← hpair]
    dsimp only
    constructor
    · rw [applyVelUpdates, List.length_mapIdx]
    · intro i hil
      by_cases hi : i < colors.length
      · have e := mapM_some_getElem? _ _ _ hu i i (List.getElem?_range hi)
        rw [if_pos hil] at e
        apply applyVelUpdates_keep
        rw [e]
        rfl
      · apply applyVelUpdates_keep
        have hlen : updates.length ≤ i := by
          rw [mapM_some_length _ _ _ hu]
          simpa using (by omega : colors.length ≤ i)
        rw [List.getElem?_eq_none hlen]
        rfl
  · rw [initializeVelocities, List.length_map]
  · intro i hi
    exact initializeVelocities_getElem? colors i hi

/-- C8 witness: with one black color and a one-entry velocity map, the map
length is preserved by a step; the initialization facts hold for the
one-color palette. -/
theorem c8_velocity_lifecycle_witness :
    (([createColor 0 0 0], ([⟨0, 0, 0⟩, ⟨0, 0, 0⟩] : List ColorVelocity)).2.length =
      ([⟨0, 0, 0⟩, ⟨0, 0, 0⟩] : List ColorVelocity).length ∧
      ∀ i ∈ (∅ : Finset ℕ),
        ([createColor 0 0 0], ([⟨0, 0, 0⟩, ⟨0, 0, 0⟩] : List ColorVelocity)).2[i]? =
          ([⟨0, 0, 0⟩, ⟨0, 0, 0⟩] : List ColorVelocity)[i]?) ∧
    (([createColor 0 0 0, createColor 0 0 0],
        ([⟨0, 0, 0⟩, ⟨0, 0, 0⟩] : List ColorVelocity)).2.length =
      ([createColor 0 0 0, createColor 0 0 0] : List Color).length) := by
  constructor
  · exact (c8_velocity_lifecycle [] [createColor 0 0 0] ∅
      [⟨0, 0, 0⟩, ⟨0, 0, 0⟩]).2.1 (by simp) _ (step_black1_stale ∅)
  · exact (c8_velocity_lifecycle [] [createColor 0 0 0, createColor 0 0 0] ∅
      []).1 _ (step_black2_fresh ∅)

/-- C8 counterexample: a fresh system stepped on a two-color palette builds a
two-entry velocity map; a following step on a one-color palette does not
re-initialize it (the map is nonempty), leaving a stale two-entry map for the
one-entry palette, contradicting re-initialization on every palette length
change. -/
theorem c8_counterexample :
    simulateStep [] [createColor 0 0 0, createColor 0 0 0] ∅ [] =
      some ([createColor 0 0 0, createColor 0 0 0], [⟨0, 0, 0⟩, ⟨0, 0, 0⟩]) ∧
    simulateStep [] [createColor 0 0 0] ∅ [⟨0, 0, 0⟩, ⟨0, 0, 0⟩] =
      some ([createColor 0 0 0], [⟨0, 0, 0⟩, ⟨0, 0, 0⟩]) ∧
    ([⟨0, 0, 0⟩, ⟨0, 0, 0⟩] : List ColorVelocity).length ≠
      ([createColor 0 0 0] : List Color).length := by
  refine ⟨step_black2_fresh ∅, step_black1_stale ∅, by simp⟩

/-!
Gradient engine. oklabMix converts the stored (rounded) rgb fields through
the fixed 3 by 3 matrices with a cube-root compression, mixes, applies the
midpoint gain, converts back, clamps and rounds, and rebuilds a Color from
the chroma rgb-to-hsl conversion. For an achromatic rounded result the
chroma hue is NaN (0 divided by 0 in JS); that poisoned-Color case is
modelled as none.
-/

/-- Row-vector dot products of a 3 by 3 matrix (triple of rows) with a
3-vector, as multiplyMatrixVector does. -/
noncomputable def multiplyMatrixVector
    (m : (ℝ × ℝ × ℝ) × (ℝ × ℝ × ℝ) × (ℝ × ℝ × ℝ)) (v : ℝ × ℝ × ℝ) :
    ℝ × ℝ × ℝ :=
  (m.1.1 * v.1 + m.1.2.1 * v.2.1 + m.1.2.2 * v.2.2,
   m.2.1.1 * v.1 + m.2.1.2.1 * v.2.1 + m.2.1.2.2 * v.2.2,
   m.2.2.1 * v.1 + m.2.2.2.1 * v.2.1 + m.2.2.2.2 * v.2.2)

/-- The fixed cone matrix constants of oklabMix. -/
noncomputable def CONE_TO_LMS : (ℝ × ℝ × ℝ) × (ℝ × ℝ × ℝ) × (ℝ × ℝ × ℝ) :=
  ((0.4121656120, 0.2118591070, 0.0883097947),
   (0.5362752080, 0.6807189584, 0.2818474174),
   (0.0514575653, 0.1074065790, 0.6302613616))

/-- The fixed inverse matrix constants of oklabMix. -/
noncomputable def LMS_TO_CONE : (ℝ × ℝ × ℝ) × (ℝ × ℝ × ℝ) × (ℝ × ℝ × ℝ) :=
  ((4.0767245293, -1.2681437731, -0.0041119885),
   (-3.3072168827, 2.6093323231, -0.7034763098),
   (0.2307590544, -0.3411344290, 1.7068625689))

/-- Math.pow(Math.max(0, v), 1/3). -/
noncomputable def cbrtNonneg (v : ℝ) : ℝ := (max 0 v) ^ ((1 : ℝ) / 3)

/-- Hue of the chroma rgb-to-hsl conversion; none models the NaN hue of an
achromatic input (0/0 in JS). -/
noncomputable def rgb2hslHue (r g b : ℝ) : Option ℝ :=
  let r0 := r / 255
  let g0 := g / 255
  let b0 := b / 255
  let maxRgb := max r0 (max g0 b0)
  let minRgb := min r0 (min g0 b0)
  if maxRgb = minRgb then none
  else
    let h0 :=
      if r0 = maxRgb then (g0 - b0) / (maxRgb - minRgb)
      else if g0 = maxRgb then 2 + (b0 - r0) / (maxRgb - minRgb)
      else 4 + (r0 - g0) / (maxRgb - minRgb)
    let h1 := h0 * 60
    some (if h1 < 0 then h1 + 360 else h1)

/-- Saturation of the chroma rgb-to-hsl conversion (unit scale). -/
noncomputable def rgb2hslSat (r g b : ℝ) : ℝ :=
  let r0 := r / 255
  let g0 := g / 255
  let b0 := b / 255
  let maxRgb := max r0 (max g0 b0)
  let minRgb := min r0 (min g0 b0)
  let l := (maxRgb + minRgb) / 2
  if maxRgb = minRgb then 0
  else if l < 0.5 then (maxRgb - minRgb) / (maxRgb + minRgb)
  else (maxRgb - minRgb) / (2 - maxRgb - minRgb)

/-- Lightness of the chroma rgb-to-hsl conversion (unit scale). -/
noncomputable def rgb2hslLight (r g b : ℝ) : ℝ :=
  let r0 := r / 255
  let g0 := g / 255
  let b0 := b / 255
  ((max r0 (max g0 b0)) + (min r0 (min g0 b0))) / 2

/-- oklabMix: linearize the stored rgb fields to the unit scale, apply the
cone matrix and cube-root compression, interpolate, apply the midpoint gain,
cube, apply the inverse matrix, clamp and round to 0 to 255, and rebuild a
Color through the chroma hsl reading of that rgb. -/
noncomputable def oklabMix (color1 color2 : Color) (t : ℝ) : Option Color :=
  let lin1 := (color1.rgbR / 255, color1.rgbG / 255, color1.rgbB / 255)
  let lin2 := (color2.rgbR / 255, color2.rgbG / 255, color2.rgbB / 255)
  let u1 := multiplyMatrixVector CONE_TO_LMS lin1
  let u2 := multiplyMatrixVector CONE_TO_LMS lin2
  let lms1 := (cbrtNonneg u1.1, cbrtNonneg u1.2.1, cbrtNonneg u1.2.2)
  let lms2 := (cbrtNonneg u2.1, cbrtNonneg u2.2.1, cbrtNonneg u2.2.2)
  let lms := (lms1.1 * (1 - t) + lms2.1 * t,
    lms1.2.1 * (1 - t) + lms2.2.1 * t,
    lms1.2.2 * (1 - t) + lms2.2.2 * t)
  let gain := 1 + 0.2 * t * (1 - t)
  let lmsGained := (lms.1 * gain, lms.2.1 * gain, lms.2.2 * gain)
  let cubed := (lmsGained.1 * lmsGained.1 * lmsGained.1,
    lmsGained.2.1 * lmsGained.2.1 * lmsGained.2.1,
    lmsGained.2.2 * lmsGained.2.2 * lmsGained.2.2)
  let rgb := multiplyMatrixVector LMS_TO_CONE cubed
  let rr := jsRound (max 0 (min 255 (rgb.1 * 255)))
  let rg := jsRound (max 0 (min 255 (rgb.2.1 * 255)))
  let rb := jsRound (max 0 (min 255 (rgb.2.2 * 255)))
  (rgb2hslHue rr rg rb).map (fun hh =>
    createColor hh (rgb2hslSat rr rg rb * 100) (rgb2hslLight rr rg rb * 100))

/-- generateHSLGradient: exact start, 19 interior samples at t = i/20 for
i = 1 .. 19 with hue along the wrapped shortest arc and linear saturation
and lightness, exact end. -/
noncomputable def generateHSLGradient (startC endC : Option Color) : List Color :=
  match startC, endC with
  | some s, some e =>
    let hueDiff := jsMod (e.h - s.h + 540) 360 - 180
    (s :: (List.range' 1 19).map (fun (i : ℕ) =>
      let t := (i : ℝ) / 20
      createColor (jsMod (s.h + hueDiff * t + 360) 360)
        (s.s + t * (e.s - s.s)) (s.l + t * (e.l - s.l)))) ++ [e]
  | _, _ => []

/-- The lightness grid 0, 0.2, ..., 100 scanned by the even-luminance
search. JS accumulates the loop variable with l += 0.2 in floating point;
the exact grid has the same 501 iterations. -/
noncomputable def lumSearchGrid : List ℝ :=
  (List.range 501).map (fun (k : ℕ) => (k : ℝ) * 0.2)

/-- The inner lightness search of generateEvenLumGradient: track the best
luminance match (none stands for the initial Infinity best difference and
null best color), stop early below 0.001. -/
noncomputable def lumSearchLoop (h s target : ℝ) :
    List ℝ → Option ℝ → Option Color → Option Color
  | [], _, best => best
  | lv :: rest, bestDiff, best =>
    let c := createColor h s lv
    let d := |c.luminance - target|
    match bestDiff with
    | none =>
      if d < 0.001 then some c else lumSearchLoop h s target rest (some d) (some c)
    | some bd =>
      if d < bd then
        (if d < 0.001 then some c
         else lumSearchLoop h s target rest (some d) (some c))
      else
        (if d < 0.001 then best
         else lumSearchLoop h s target rest (some bd) best)

/-- generateEvenLumGradient: exact start, then for each interior t the hue
and saturation interpolate as in the hsl gradient while the lightness comes
from the grid search for the interpolated target luminance (the color is
pushed only when the search produced one), exact end. -/
noncomputable def generateEvenLumGradient (startC endC : Option Color) : List Color :=
  match startC, endC with
  | some s, some e =>
    let hueDiff := jsMod (e.h - s.h + 540) 360 - 180
    (s :: (List.range' 1 19).filterMap (fun (i : ℕ) =>
      let t := (i : ℝ) / 20
      let targetLum := s.luminance + t * (e.luminance - s.luminance)
      lumSearchLoop (jsMod (s.h + hueDiff * t + 360) 360)
        (s.s + t * (e.s - s.s)) targetLum lumSearchGrid none none)) ++ [e]
  | _, _ => []

/-- generateOKLabGradient: 21 oklabMix samples at t = i/20 for i = 0 .. 20;
the endpoints are mixes too, not copies of the inputs. -/
noncomputable def generateOKLabGradient (startC endC : Option Color) :
    List (Option Color) :=
  match startC, endC with
  | some s, some e =>
    (List.range 21).map (fun (i : ℕ) => oklabMix s e ((i : ℝ) / 20))
  | _, _ => []

lemma cbrtNonneg_cube (u : ℝ) (hu : 0 ≤ u) :
    cbrtNonneg u * cbrtNonneg u * cbrtNonneg u = u := by
  rw [cbrtNonneg, max_eq_right hu]
  rw [show u ^ ((1 : ℝ) / 3) * u ^ ((1 : ℝ) / 3) * u ^ ((1 : ℝ) / 3) =
    (u ^ ((1 : ℝ) / 3)) ^ (3 : ℕ) by ring]
  rw [← Real.rpow_natCast (u ^ ((1 : ℝ) / 3)) 3]
  rw [← Real.rpow_mul hu]
  norm_num

lemma start350_rgb :
    (createColor 350 100 50).rgbR = 255 ∧ (createColor 350 100 50).rgbG = 0 ∧
      (createColor 350 100 50).rgbB = 43 := by
  refine ⟨?_, ?_, ?_⟩ <;> norm_num [createColor, hsl2rgb, hsl2rgbChannel, jsRound]

lemma black_rgb :
    (createColor 0 0 0).rgbR = 0 ∧ (createColor 0 0 0).rgbG = 0 ∧
      (createColor 0 0 0).rgbB = 0 := by
  refine ⟨?_, ?_, ?_⟩ <;> norm_num [createColor, hsl2rgb, hsl2rgbChannel, jsRound]

lemma cbrtNonneg_zero : cbrtNonneg 0 = 0 := by
  rw [cbrtNonneg, max_self, Real.zero_rpow (by norm_num)]

set_option maxHeartbeats 2000000 in
/-- The t = 0 oklab mix of the (350, 100, 50) color with black reconstructs
hue 5948/17 (about 349.88 degrees), not 350: the rgb round trip (255, 0, 42.5
rounded to 43) shifts the hue. -/
lemma oklabMix_350_black_t0 :
    (oklabMix (createColor 350 100 50) (createColor 0 0 0) 0).map Color.h =
      some (5948 / 17) := by
  obtain ⟨hr, hg, hb⟩ := start350_rgb
  obtain ⟨er, eg, eb⟩ := black_rgb
  simp only [oklabMix, hr, hg, hb, er, eg, eb, multiplyMatrixVector,
    CONE_TO_LMS, LMS_TO_CONE]
  have hu1 : (0.4121656120 * ((255 : ℝ) / 255) + 0.2118591070 * (0 / 255) +
      0.0883097947 * (43 / 255)) = 1088995522321 / 2550000000000 := by norm_num
  have hu2 : (0.5362752080 * ((255 : ℝ) / 255) + 0.6807189584 * (0 / 255) +
      0.2818474174 * (43 / 255)) = 744348084941 / 1275000000000 := by norm_num
  have hu3 : (0.0514575653 * ((255 : ℝ) / 255) + 0.1074065790 * (0 / 255) +
      0.6302613616 * (43 / 255)) = 402229177003 / 2550000000000 := by norm_num
  have he1 : (0.4121656120 * ((0 : ℝ) / 255) + 0.2118591070 * (0 / 255) +
      0.0883097947 * (0 / 255)) = 0 := by norm_num
  have he2 : (0.5362752080 * ((0 : ℝ) / 255) + 0.6807189584 * (0 / 255) +
      0.2818474174 * (0 / 255)) = 0 := by norm_num
  have he3 : (0.0514575653 * ((0 : ℝ) / 255) + 0.1074065790 * (0 / 255) +
      0.6302613616 * (0 / 255)) = 0 := by norm_num
  rw [hu1, hu2, hu3, he1, he2, he3, cbrtNonneg_zero]
  have hmix : ∀ a : ℝ, (a * (1 - 0) + 0 * 0) * (1 + 0.2 * 0 * (1 - 0)) = a := by
    intro a; ring
  rw [hmix, hmix, hmix]
  rw [cbrtNonneg_cube (1088995522321 / 2550000000000) (by norm_num),
    cbrtNonneg_cube (744348084941 / 1275000000000) (by norm_num),
    cbrtNonneg_cube (402229177003 / 2550000000000) (by norm_num)]
  norm_num [jsRound, rgb2hslHue, rgb2hslSat, rgb2hslLight]

/-- C1 counterexample: the OKLab gradient from (350, 100, 50) to black has
oklabMix at t = 0 as its first element, and that element differs from the
start color already in its h field (5948/17 versus 350). -/
theorem c1_counterexample :
    (generateOKLabGradient (some (createColor 350 100 50))
      (some (createColor 0 0 0))).head? =
      some (oklabMix (createColor 350 100 50) (createColor 0 0 0) 0) ∧
    (oklabMix (createColor 350 100 50) (createColor 0 0 0) 0).map Color.h ≠
      some ((createColor 350 100 50).h) := by
  constructor
  · simp only [generateOKLabGradient]
    rw [show List.range 21 = 0 :: (List.range 20).map Nat.succ from
      List.range_succ_eq_map 20]
    rw [List.map_cons]
    rw [List.head?_cons]
    norm_num
  · rw [oklabMix_350_black_t0, createColor_h]
    intro h
    injection h with h2
    norm_num at h2

/-- C1 (amended): the naive hsl gradient and the even-luminance gradient
start with exactly the start color and end with exactly the end color (they
are placed in the list verbatim); the OKLab gradient instead samples oklabMix
at t = 0 and t = 1, which reconstructs the endpoints through an rgb round
trip and need not reproduce them exactly. -/
theorem c1_gradient_endpoints (s e : Color) :
    (generateHSLGradient (some s) (some e)).head? = some s ∧
    (generateHSLGradient (some s) (some e)).getLast? = some e ∧
    (generateEvenLumGradient (some s) (some e)).head? = some s ∧
    (generateEvenLumGradient (some s) (some e)).getLast? = some e := by
  refine ⟨?_, ?_, ?_, ?_⟩
  · rfl
  · simp only [generateHSLGradient]
    exact List.getLast?_concat _
  · rfl
  · simp only [generateEvenLumGradient]
    exact List.getLast?_concat _

lemma lumSearchLoop_isSome_carry (h s target : ℝ) :
    ∀ (grid : List ℝ) (bd : ℝ) (c : Color),
      (lumSearchLoop h s target grid (some bd) (some c)).isSome = true := by
  intro grid
  induction grid with
  | nil => intro bd c; rfl
  | cons lv rest ih =>
    intro bd c
    rw [lumSearchLoop]
    by_cases h1 : |(createColor h s lv).luminance - target| < bd <;>
      by_cases h2 : |(createColor h s lv).luminance - target| < 0.001 <;>
        simp [h1, h2, ih]

lemma lumSearchLoop_grid_isSome (h s target : ℝ) :
    (lumSearchLoop h s target lumSearchGrid none none).isSome = true := by
  rw [lumSearchGrid]
  rw [show List.range 501 = 0 :: (List.range 500).map Nat.succ from
    List.range_succ_eq_map 500]
  rw [List.map_cons]
  rw [lumSearchLoop]
  by_cases h2 : |(createColor h s ((0 : ℕ) * 0.2)).luminance - target| < 0.001
  · rw [if_pos h2]
    rfl
  · rw [if_neg h2]
    exact lumSearchLoop_isSome_carry h s target _ _ _

lemma filterMap_length_of_some {α β : Type} (f : α → Option β) :
    ∀ (l : List α), (∀ a ∈ l, (f a).isSome = true) →
      (l.filterMap f).length = l.length := by
  intro l
  induction l with
  | nil => intro _; rfl
  | cons a l ih =>
    intro h
    rw [List.filterMap_cons]
    cases hfa : f a with
    | none =>
      have hsome := h a (by simp)
      rw [hfa] at hsome
      simp at hsome
    | some b => simp [List.length_cons, ih (fun x hx => h x (by simp [hx]))]

/-- C6 counterexample: at a concrete input pair the hsl gradient has 21
entries, not the claimed 22. -/
theorem c6_counterexample :
    (generateHSLGradient (some (createColor 0 0 0))
      (some (createColor 0 0 0))).length = 21 ∧ (21 : ℕ) ≠ 22 := by
  constructor
  · simp [generateHSLGradient]
  · decide

/-- C6 (amended): for every pair of non-null colors each of the three
gradient generators returns exactly 21 entries: the two endpoints plus 19
intermediate samples (the loops use steps = 20 with interior indexes
1 .. 19, and the OKLab loop samples i = 0 .. 20). -/
theorem c6_gradient_lengths (s e : Color) :
    (generateHSLGradient (some s) (some e)).length = 21 ∧
    (generateEvenLumGradient (some s) (some e)).length = 21 ∧
    (generateOKLabGradient (some s) (some e)).length = 21 := by
  refine ⟨?_, ?_, ?_⟩
  · simp [generateHSLGradient]
  · simp only [generateEvenLumGradient, List.length_append, List.length_cons]
    rw [filterMap_length_of_some _ _ (fun i _ => lumSearchLoop_grid_isSome _ _ _)]
    simp
  · simp [generateOKLabGradient]

/-!
Text-format parsing (parseColors). Lines and tokens are lists of
characters; the split-on-separator, trim and prefix tests mirror the JS
string routines structurally. The NaN results of parseInt and parseFloat
are modelled as none, and the guarded index conditions treat none as a
failed comparison, as NaN comparisons do. The sparse result array is
represented by its assignment log: position writes in order, each carrying
the (possibly NaN) h, s, l passed to createColor. The final missing-colors
test newColors.some(c => !c) visits only assigned slots (Array.prototype.some
skips holes) and every assigned value is an object, hence truthy, so the
callback is false on every visited slot; parseColors can therefore never
take its throw path.
-/

/-- JS String.split with a one-character separator: empty input gives one
empty field, every separator occurrence starts a new field. -/
def splitOnChar (sep : Char) : List Char → List (List Char)
  | [] => [[]]
  | c :: rest =>
    let r := splitOnChar sep rest
    if c = sep then [] :: r
    else
      match r with
      | h :: t => (c :: h) :: t
      | [] => [[c]]

/-- JS String.trim: drop whitespace from both ends. -/
def trimL (cs : List Char) : List Char :=
  ((cs.dropWhile (fun c => c.isWhitespace)).reverse.dropWhile
    (fun c => c.isWhitespace)).reverse

/-- Group line marker. -/
def groupTagL : List Char := "Group".toList

/-- Palette line marker. -/
def paletteTagL : List Char := "Palette".toList

/-- Color line marker. -/
def colorTagL : List Char := "Color".toList

/-- HSL line marker. -/
def hslTagL : List Char := "HSL:".toList

/-- Minus sign character. -/
def minusChar : Char := ('-')

/-- Plus sign character. -/
def plusChar : Char := ('+')

/-- Decimal point character. -/
def dotChar : Char := ('.')

/-- Newline character. -/
def newlineChar : Char := ('\n')

/-- Space character. -/
def spaceChar : Char := (' ')

/-- Colon character. -/
def colonChar : Char := (':')

/-- Comma character. -/
def commaChar : Char := (',')

/-- Value of a maximal leading digit run; none when it is empty. -/
def digitsPrefixVal (cs : List Char) : Option ℕ :=
  let ds := cs.takeWhile (fun c => c.isDigit)
  if ds.isEmpty then none
  else some (ds.foldl (fun acc c => acc * 10 + (c.toNat - 48)) 0)

/-- JS parseInt on a base-10 string: skip whitespace, optional sign, maximal
digit prefix; NaN (none) when no digit is found. -/
def parseIntL (cs0 : List Char) : Option ℤ :=
  let cs := trimL cs0
  match cs with
  | c :: rest =>
    if c = minusChar then (digitsPrefixVal rest).map (fun n => -(n : ℤ))
    else if c = plusChar then (digitsPrefixVal rest).map (fun n => (n : ℤ))
    else (digitsPrefixVal cs).map (fun n => (n : ℤ))
  | [] => none

/-- Numeric value of a digit run. -/
def digitsVal (ds : List Char) : ℕ :=
  ds.foldl (fun acc c => acc * 10 + (c.toNat - 48)) 0

/-- JS parseFloat: skip whitespace, optional sign, digits with an optional
fraction part, ignoring trailing garbage; NaN (none) when nothing numeric
leads the string. The format written by the companion save code never uses
exponent notation, which is omitted here. -/
noncomputable def parseFloatL (cs0 : List Char) : Option ℝ :=
  let cs := trimL cs0
  let sgn : ℝ × List Char :=
    match cs with
    | c :: r =>
      if c = minusChar then (-1, r)
      else if c = plusChar then (1, r)
      else (1, cs)
    | [] => (1, [])
  let ds := sgn.2.takeWhile (fun c => c.isDigit)
  let rest2 := sgn.2.drop ds.length
  let fs :=
    match rest2 with
    | c :: r => if c = dotChar then r.takeWhile (fun x => x.isDigit) else []
    | [] => []
  if ds.isEmpty ∧ fs.isEmpty then none
  else some (sgn.1 * ((digitsVal ds : ℝ) + (digitsVal fs : ℝ) / 10 ^ fs.length))

/-- Parser state of the line loop: the current group, palette and color
counters (none models NaN), the last parsed h, s, l components, and the
ordered log of sparse-array writes. -/
structure ParseState where
  currentGroup : Option ℤ
  currentPalette : Option ℤ
  currentColor : Option ℤ
  hVal : Option ℝ
  sVal : Option ℝ
  lVal : Option ℝ
  assigns : List (ℤ × (Option ℝ × Option ℝ × Option ℝ))

/-- Initial state of parseColors. -/
noncomputable def initParseState : ParseState :=
  ⟨some (-1), some (-1), some (-1), some 0, some 0, some 0, []⟩

/-- One iteration of the parseColors line loop. -/
noncomputable def processLine (st : ParseState) (line : List Char) : ParseState :=
  if groupTagL.isPrefixOf line then
    { st with
      currentGroup :=
        (((splitOnChar spaceChar line)[1]?).bind parseIntL).map (· - 1),
      currentPalette := some (-1) }
  else if paletteTagL.isPrefixOf line then
    { st with
      currentPalette :=
        (((splitOnChar spaceChar line)[1]?).bind parseIntL).map (· - 1),
      currentColor := some (-1) }
  else if colorTagL.isPrefixOf line then
    { st with
      currentColor :=
        (((splitOnChar spaceChar line)[1]?).bind parseIntL).map (· - 1) }
  else if hslTagL.isPrefixOf (trimL line) then
    let parts := splitOnChar commaChar (((splitOnChar colonChar line)[1]?).getD [])
    let hv := (parts[0]?).bind parseFloatL
    let sv := (parts[1]?).bind parseFloatL
    let lv := (parts[2]?).bind parseFloatL
    let assigns2 :=
      match st.currentGroup, st.currentPalette, st.currentColor with
      | some cg, some cp, some cc =>
        if 0 ≤ cg ∧ 0 ≤ cp ∧ 0 ≤ cc then
          st.assigns ++ [(cg * 30 + cp * 5 + cc, (hv, sv, lv))]
        else st.assigns
      | _, _, _ => st.assigns
    { st with hVal := hv, sVal := sv, lVal := lv, assigns := assigns2 }
  else st

/-- The missing-colors test: Array.prototype.some visits only assigned
slots, and every assigned slot holds a Color object, which is truthy, so the
callback c => !c is false on each visited slot. -/
def missingCheck (assigns : List (ℤ × (Option ℝ × Option ℝ × Option ℝ))) : Bool :=
  assigns.any (fun _ => false)

/-- parseColors: fold the line loop over the split lines, then return null
when the missing-colors test fires, else the (possibly sparse) result. -/
noncomputable def parseColors (text : String) :
    Option (List (ℤ × (Option ℝ × Option ℝ × Option ℝ))) :=
  let lines := splitOnChar newlineChar text.toList
  let final := lines.foldl processLine initParseState
  if missingCheck final.assigns then none else some final.assigns

lemma missingCheck_false (assigns : List (ℤ × (Option ℝ × Option ℝ × Option ℝ))) :
    missingCheck assigns = false := by
  rw [missingCheck]
  simp

/-- C9: the missing-colors rejection can never fire. On the empty text no
color slot is recovered, yet parseColors succeeds with an all-holes result;
more generally it never returns null for any input, because the some(c => !c)
check skips array holes and assigned Color objects are truthy. This
contradicts the claim (and the intent documented by the code's own
"Missing colors in file" error), so the code, not the claim, is wrong. -/
theorem c9_missing_colors_never_detected :
    parseColors "" = some [] ∧ ∀ text, parseColors text ≠ none := by
  constructor
  · rfl
  · intro text
    rw [parseColors]
    rw [missingCheck_false]
    simp
